import Mathlib

/-!
# portkiller: port table builder and key-handling state machine

A shallow embedding of `src/main.go`.

* `getActivePorts` (main.go 44-64) is embedded over an explicit operating-system
  state: the calls into gopsutil (`net.Connections`, `process.NewProcess`,
  `(*Process).Name`, `(*Process).Kill`) are the fields of `OS`, each a function
  of the current OS state. `Kill` is the only one that returns a new state.
* `model.Update` (main.go 71-101) is embedded over an abstract list widget
  (`ListWidget`, the part of `bubbles/list.Model` the program calls) and the
  lipgloss styles (`Styles`). A Go panic is the `Except.error` result.
* Go's `uint32` port and `int32` pid are `Nat` and `Int`; the program only
  compares and prints them, no arithmetic is performed on either.
-/

namespace PortKiller

/-! ## Data model -/

/-- Go's `error` interface value; `none` is `nil`. -/
abbrev GoError := Option String

/-- The `net.Addr` of gopsutil: the fields of a socket address. -/
structure Addr where
  IP : String
  Port : Nat
deriving DecidableEq, Repr

/-- The `net.ConnectionStat` of gopsutil, restricted to the fields the program reads. -/
structure ConnectionStat where
  Laddr : Addr
  Status : String
  Pid : Int
deriving DecidableEq, Repr

/-- The `process.Process` handle of gopsutil. -/
structure Process where
  Pid : Int
deriving DecidableEq, Repr

/-- The `portItem` of main.go 26-30. -/
structure portItem where
  port : Nat
  pid : Int
  procName : String
deriving DecidableEq, Repr

/-- The operating-system interface used by the program, over an explicit OS state `σ`.
`Connections`, `NewProcess` and `Name` are queries; `Kill` returns the new OS state. -/
structure OS (σ : Type) where
  /-- The call `net.Connections(kind)`: the records and the error. -/
  Connections : σ → String → List ConnectionStat × GoError
  /-- The call `process.NewProcess(pid)`: a handle, or the error. -/
  NewProcess : σ → Int → Except String Process
  /-- The call `p.Name()`: the returned string and the error. -/
  Name : σ → Process → String × GoError
  /-- The call `p.Kill()`: the error and the OS state after the call. -/
  Kill : σ → Process → GoError × σ

/-- Format verb `%d` of `fmt.Sprintf` on a signed integer. -/
def fmtInt (i : Int) : String := toString i

/-- Format verb `%d` of `fmt.Sprintf` on an unsigned integer. -/
def fmtNat (n : Nat) : String := toString n

/-! ## getActivePorts -/

/-- The loop variables of `getActivePorts`: the `seen` map and the `items` slice. -/
structure ScanState where
  seen : Nat → Bool
  items : List portItem

/-- The initial loop variables: `seen := make(map[uint32]bool)`, `var items []list.Item`. -/
def ScanState.init : ScanState := ⟨fun _ => false, []⟩

/-- Name resolution of main.go 52-55: `name := "Unknown"`, overwritten by the
string `p.Name()` returns (its error is discarded) when a handle is obtained. -/
def resolveName {σ : Type} (os : OS σ) (s : σ) (pid : Int) : String :=
  match os.NewProcess s pid with
  | .ok p => (os.Name s p).1
  | .error _ => "Unknown"

/-- One iteration of the loop of main.go 49-58. -/
def scanStep {σ : Type} (os : OS σ) (s : σ) (st : ScanState) (c : ConnectionStat) : ScanState :=
  if c.Status == "LISTEN" && !st.seen c.Laddr.Port then
    { seen := fun p => if p = c.Laddr.Port then true else st.seen p
      items := st.items ++ [{ port := c.Laddr.Port, pid := c.Pid, procName := resolveName os s c.Pid }] }
  else st

/-- The loop of main.go 49-58 over the connection records. -/
def scanConns {σ : Type} (os : OS σ) (s : σ) (conns : List ConnectionStat) : ScanState :=
  conns.foldl (scanStep os s) ScanState.init

/-- The comparison passed to `sort.Slice` at main.go 60-62. -/
def portLess (a b : portItem) : Bool := decide (a.port < b.port)

/-- Go's `sort.Slice(items, less)`, embedded as an insertion sort by `less`.
`sort.Slice` promises a permutation of the slice that is ordered by `less`, without
stability: `IsSliceSort` is that contract. -/
def sortSlice {α : Type} (less : α → α → Bool) (l : List α) : List α :=
  l.insertionSort (fun a b => less b a = false)

/-- The contract of `sort.Slice`: `out` is a permutation of `inp` in which no later
element is `less` than an earlier one. -/
def IsSliceSort {α : Type} (less : α → α → Bool) (inp out : List α) : Prop :=
  out.Perm inp ∧ out.Pairwise (fun a b => less b a = false)

/-- The function `getActivePorts` of main.go 44-64. -/
def getActivePorts {σ : Type} (os : OS σ) (s : σ) : List portItem :=
  let conns := (os.Connections s "tcp").1
  let items := (scanConns os s conns).items
  sortSlice portLess items

/-! ## The Bubble Tea model -/

/-- The `tea.Msg` values `Update` distinguishes; a `KeyMsg` carries its `String()`. -/
inductive Msg where
  | KeyMsg (key : String)
  | WindowSizeMsg (Width Height : Int)
  | other
deriving DecidableEq, Repr

/-- A `tea.Cmd`: `nil`, `tea.Quit`, or a command produced by the list widget. -/
inductive Cmd where
  | nil
  | Quit
  | widget (tag : Nat)
deriving DecidableEq, Repr

/-- A `lipgloss.Style`, as far as the program uses it. -/
structure Style where
  Render : String → String
  GetFrameSize : Int × Int

/-- The package-level styles of main.go 18-23 that `Update` uses. -/
structure Styles where
  docStyle : Style
  statusMessageStyle : Style
  errorStyle : Style

/-- The methods of `bubbles/list.Model` the program calls, over the widget state `L`.
`SelectedItem` is `none` for Go's `nil` item. -/
structure ListWidget (L : Type) where
  Items : L → List portItem
  SelectedItem : L → Option portItem
  SetItems : L → List portItem → L
  SetSize : L → Int → Int → L
  Update : L → Msg → L × Cmd

/-- What the program relies on from `bubbles/list.Model`: `SetItems` installs the
items, and the widget's own `Update` does not change them. -/
def ListWidget.Lawful {L : Type} (W : ListWidget L) : Prop :=
  (∀ l xs, W.Items (W.SetItems l xs) = xs) ∧ (∀ l msg, W.Items (W.Update l msg).1 = W.Items l)

/-- The `model` of main.go 36-41; `S` is the spinner's state, which `Update` never touches. -/
structure model (L S : Type) where
  list : L
  loading : Bool
  spinner : S
  message : String

/-- The tail of `Update`, main.go 98-100: the message is passed on to the list widget. -/
def forward {L S : Type} (W : ListWidget L) (m : model L S) (msg : Msg) : model L S × Cmd :=
  let r := W.Update m.list msg
  ({ m with list := r.1 }, r.2)

/-- The text of the panic of the failed type assertion `x.(portItem)` on a nil `list.Item`. -/
def nilAssertion : String := "interface conversion: list.Item is nil, not main.portItem"

/-- The kill keys of main.go 80. -/
def isKillKey (key : String) : Bool := key == "x" || key == "delete" || key == "k"

/-- The method `model.Update` of main.go 71-101. The result is the new model and command
together with the OS state after the call, or `Except.error` when the Go code panics. -/
def Update {σ L S : Type} (W : ListWidget L) (os : OS σ) (sty : Styles)
    (m : model L S) (msg : Msg) (s : σ) : Except String ((model L S × Cmd) × σ) :=
  match msg with
  | .KeyMsg key =>
    if key == "ctrl+c" || key == "q" then
      .ok ((m, Cmd.Quit), s)
    else if key == "r" then
      let m1 := { m with list := W.SetItems m.list (getActivePorts os s) }
      let m2 := { m1 with message := "List refreshed" }
      .ok (forward W m2 msg, s)
    else if isKillKey key then
      match W.SelectedItem m.list with
      | none => .error nilAssertion
      | some selected =>
        match os.NewProcess s selected.pid with
        | .ok p =>
          let r := os.Kill s p
          match r.1 with
          | some _ =>
            let text := "Failed to kill " ++ fmtInt selected.pid
            let m1 := { m with message := sty.errorStyle.Render text }
            .ok (forward W m1 msg, r.2)
          | none =>
            let text := "Successfully killed " ++ selected.procName ++ " (Port " ++ fmtNat selected.port ++ ")"
            let m1 := { m with message := sty.statusMessageStyle.Render text }
            let m2 := { m1 with list := W.SetItems m1.list (getActivePorts os r.2) }
            .ok (forward W m2 msg, r.2)
        | .error _ => .ok (forward W m msg, s)
    else
      .ok (forward W m msg, s)
  | .WindowSizeMsg Width Height =>
    let hv := sty.docStyle.GetFrameSize
    let m1 := { m with list := W.SetSize m.list (Width - hv.1) (Height - hv.2) }
    .ok (forward W m1 msg, s)
  | .other => .ok (forward W m msg, s)

/-- The text `t` occurs in `s` as a contiguous run of characters. -/
def containsText (s t : String) : Prop := t.data <:+: s.data

instance (s t : String) : Decidable (containsText s t) := by
  unfold containsText; infer_instance

/-! ## Specification vocabulary -/

/-- The entry the loop builds for a record (main.go 56). -/
def itemOf {σ : Type} (os : OS σ) (s : σ) (c : ConnectionStat) : portItem :=
  { port := c.Laddr.Port, pid := c.Pid, procName := resolveName os s c.Pid }

/-- The record is a `LISTEN` record whose local port is `p`. -/
def isListenOn (p : Nat) (c : ConnectionStat) : Bool :=
  c.Status == "LISTEN" && c.Laddr.Port == p

/-- The first `LISTEN` record with local port `p`, in input order. -/
def firstListen (conns : List ConnectionStat) (p : Nat) : Option ConnectionStat :=
  conns.find? (isListenOn p)

/-- The number of entries of a table whose port is `p`. -/
def entriesFor (items : List portItem) (p : Nat) : Nat :=
  (items.filter (fun e => e.port == p)).length

/-- The loop invariant of `getActivePorts` after the records `pre` have been visited. -/
structure ScanInv {σ : Type} (os : OS σ) (s : σ) (pre : List ConnectionStat)
    (st : ScanState) : Prop where
  seen_iff : ∀ p, st.seen p = true ↔ p ∈ st.items.map portItem.port
  port_iff : ∀ p, p ∈ st.items.map portItem.port ↔ ∃ c ∈ pre, isListenOn p c = true
  nodup : (st.items.map portItem.port).Nodup
  first : ∀ e ∈ st.items, ∃ c, firstListen pre e.port = some c ∧ e = itemOf os s c

/-- The same operating system, whose connection query returns the `LISTEN` records only. -/
def listenOnly {σ : Type} (os : OS σ) : OS σ :=
  { os with Connections := fun s kind =>
      ((os.Connections s kind).1.filter (fun c => c.Status == "LISTEN"), (os.Connections s kind).2) }

/-- The value of a decimal digit character. -/
def digitValue (c : Char) : Nat := c.toNat - 48

/-- The character is one of the decimal digits 0 to 9. -/
def isDecimalDigit (c : Char) : Bool := decide (48 ≤ c.toNat) && decide (c.toNat ≤ 57)

/-- The number a string of decimal digits denotes, read from the left. -/
def numeralValue (cs : List Char) : Nat := cs.foldl (fun acc c => 10 * acc + digitValue c) 0

/-- The characters `cs` are the decimal numeral of `n`: at least one digit, only digits,
no leading zero except for the numeral of zero itself, and the value `n`. -/
def IsNumeralOf (n : Nat) (cs : List Char) : Prop :=
  cs ≠ [] ∧ (∀ c ∈ cs, isDecimalDigit c = true) ∧ (cs.head? = some '0' → cs = ['0']) ∧
    numeralValue cs = n

instance (n : Nat) (cs : List Char) : Decidable (IsNumeralOf n cs) := by
  unfold IsNumeralOf; infer_instance

/-- The string `t` is the decimal representation of the integer `i`: the numeral of `i`
when `i` is not negative, a minus sign followed by the numeral of `-i` otherwise. -/
def IsDecimalOf (i : Int) (t : String) : Prop :=
  (0 ≤ i ∧ IsNumeralOf i.toNat t.data) ∨
    (i < 0 ∧ t.data.head? = some '-' ∧ IsNumeralOf i.natAbs t.data.tail)

instance (i : Int) (t : String) : Decidable (IsDecimalOf i t) := by
  unfold IsDecimalOf; infer_instance

/-- The character is neither a tab, nor a line feed, nor a carriage return. -/
def isPlainChar (c : Char) : Bool := c != '\t' && c != '\n' && c != '\r'

/-- The text has no tab, line feed or carriage return. -/
def isPlain (t : String) : Bool := t.data.all isPlainChar

/-- What the program relies on from `lipgloss.Style.Render` for its two message styles
(colour with bold or italic; no width, padding or border): `Render` rewrites tabs and
styles the text line by line, and every run of characters without tab, line feed and
carriage return is found unbroken in the result. -/
def Style.KeepsPlainRuns (st : Style) : Prop :=
  ∀ a b c : String, isPlain b = true → containsText (st.Render (a ++ b ++ c)) b

/-- The text of the failure message of main.go 86, before styling. -/
def failureText (sel : portItem) : String := "Failed to kill " ++ fmtInt sel.pid

/-- The text of the success message of main.go 88, before styling. -/
def successText (sel : portItem) : String :=
  "Successfully killed " ++ sel.procName ++ " (Port " ++ fmtNat sel.port ++ ")"

/-! ## Concrete inputs -/

/-- An OS state: the connection table and the pids of the live processes with their names. -/
structure SimState where
  conns : List ConnectionStat
  procs : List (Int × String)
deriving DecidableEq, Repr

/-- A small operating system: a process handle exists for the listed pids, `Name`
looks the name up, and `Kill` removes the process and its sockets. -/
def simOS : OS SimState where
  Connections := fun s _ => (s.conns, none)
  NewProcess := fun s pid =>
    if s.procs.any (fun q => q.1 == pid) then .ok ⟨pid⟩ else .error "process does not exist"
  Name := fun s p =>
    match s.procs.find? (fun q => q.1 == p.Pid) with
    | some q => (q.2, none)
    | none => ("", some "no such process")
  Kill := fun s p =>
    if s.procs.any (fun q => q.1 == p.Pid) then
      (none, { conns := s.conns.filter (fun c => c.Pid != p.Pid),
               procs := s.procs.filter (fun q => q.1 != p.Pid) })
    else (some "os: process already finished", s)

/-- A listening socket record. -/
def listenOn (port : Nat) (pid : Int) : ConnectionStat := ⟨⟨"0.0.0.0", port⟩, "LISTEN", pid⟩

/-- The scenario of the specification: ports 22, 80 and 22 again. -/
def specState : SimState :=
  { conns := [listenOn 22 100, listenOn 80 200, listenOn 22 999],
    procs := [(100, "sshd"), (200, "nginx")] }

/-- A state whose connection table lists port 80 before port 22, and a stale
duplicate of port 80. -/
def unorderedState : SimState :=
  { conns := [listenOn 80 200, listenOn 22 100, ⟨⟨"::", 443⟩, "ESTABLISHED", 300⟩, listenOn 80 999],
    procs := [(100, "sshd"), (200, "nginx")] }

/-- The same operating system at a moment when the pid table lags behind: a handle is
still handed out for every pid, while `Name` and `Kill` fail for a process that is gone. -/
def staleOS : OS SimState :=
  { simOS with NewProcess := fun _ pid => .ok ⟨pid⟩ }

/-- A list widget state: the items, the cursor and the size. -/
structure SimpleList where
  items : List portItem
  cursor : Nat
  width : Int
  height : Int
deriving DecidableEq, Repr

/-- A list widget: the selected item is the one under the cursor (none when the cursor is
outside the items), and the keys "k" and "j" move the cursor up and down. -/
def simpleList : ListWidget SimpleList where
  Items := fun l => l.items
  SelectedItem := fun l => l.items[l.cursor]?
  SetItems := fun l xs => { l with items := xs }
  SetSize := fun l w h => { l with width := w, height := h }
  Update := fun l msg =>
    match msg with
    | .KeyMsg key =>
      if key == "k" then ({ l with cursor := l.cursor - 1 }, Cmd.nil)
      else if key == "j" && decide (l.cursor + 1 < l.items.length) then
        ({ l with cursor := l.cursor + 1 }, Cmd.nil)
      else (l, Cmd.nil)
    | _ => (l, Cmd.nil)

/-- Styles that wrap the text in terminal colour sequences; the frame of `docStyle` is
the margin `Margin(1, 2)`. -/
def ansiStyles : Styles where
  docStyle := ⟨fun t => t, (4, 2)⟩
  statusMessageStyle := ⟨fun t => "\x1b[3;38;5;42m" ++ t ++ "\x1b[0m", (0, 0)⟩
  errorStyle := ⟨fun t => "\x1b[1;38;5;196m" ++ t ++ "\x1b[0m", (0, 0)⟩

/-- The characters of a text rendered line by line: a tab becomes four spaces, a carriage
return before a line feed is dropped, and at a line feed the closing sequence `post` ends
the line and the opening sequence `pre` starts the next one. -/
def styleChars (pre post : List Char) : List Char → List Char
  | [] => []
  | c :: cs =>
    if c = '\t' then ' ' :: ' ' :: ' ' :: ' ' :: styleChars pre post cs
    else if c = '\r' ∧ cs.head? = some '\n' then styleChars pre post cs
    else if c = '\n' then post ++ '\n' :: (pre ++ styleChars pre post cs)
    else c :: styleChars pre post cs

/-- A style that renders the way `lipgloss` does for a colour with bold or italic: every
line of the text, tabs expanded, between the opening and the closing sequence. -/
def lineStyle (pre post : String) : Style :=
  ⟨fun t => ⟨pre.data ++ styleChars pre.data post.data t.data ++ post.data⟩, (0, 0)⟩

/-- The styles of main.go 18-23 on a 256-colour terminal, rendering line by line. -/
def termStyles : Styles where
  docStyle := ⟨fun t => t, (4, 2)⟩
  statusMessageStyle := lineStyle "\x1b[3;38;5;42m" "\x1b[0m"
  errorStyle := lineStyle "\x1b[1;38;5;196m" "\x1b[0m"

/-- A state whose only listening process has a tab in its name. -/
def tabState : SimState :=
  { conns := [listenOn 53 1], procs := [(1, "my\tproc")] }

/-- A model whose list shows `items` with the cursor on the first row. -/
def modelOf (items : List portItem) (message : String) : model SimpleList Unit :=
  { list := ⟨items, 0, 80, 24⟩, loading := false, spinner := (), message := message }

/-- The same operating system, in which killing pid 1 is not permitted. -/
def guardedOS : OS SimState :=
  { simOS with Kill := fun s p =>
      if p.Pid == 1 then (some "operation not permitted", s) else simOS.Kill s p }

/-- A state with two listening processes. -/
def initState : SimState :=
  { conns := [listenOn 8080 4242, listenOn 53 1],
    procs := [(1, "systemd"), (4242, "node")] }

/-- A state in which the process 4242 that owned port 8080 has exited. -/
def goneState : SimState :=
  { conns := [listenOn 22 100], procs := [(100, "sshd")] }

/-- A state in which port 8080 is still in the connection table although its owner,
process 4242, has exited. -/
def vanishedState : SimState :=
  { conns := [listenOn 8080 4242], procs := [] }

/-! ## The loop of getActivePorts -/

theorem scanInv_init {σ : Type} (os : OS σ) (s : σ) : ScanInv os s [] ScanState.init where
  seen_iff := by intro p; simp [ScanState.init]
  port_iff := by intro p; simp [ScanState.init]
  nodup := by simp [ScanState.init]
  first := by intro e he; simp [ScanState.init] at he

theorem scanStep_skip {σ : Type} (os : OS σ) (s : σ) (st : ScanState) (c : ConnectionStat)
    (h : (c.Status == "LISTEN" && !st.seen c.Laddr.Port) = false) :
    scanStep os s st c = st := by
  simp [scanStep, h]

theorem scanStep_take {σ : Type} (os : OS σ) (s : σ) (st : ScanState) (c : ConnectionStat)
    (h : (c.Status == "LISTEN" && !st.seen c.Laddr.Port) = true) :
    scanStep os s st c =
      { seen := fun p => if p = c.Laddr.Port then true else st.seen p
        items := st.items ++ [itemOf os s c] } := by
  simp [scanStep, h, itemOf]

theorem scanInv_step {σ : Type} (os : OS σ) (s : σ) (pre : List ConnectionStat)
    (st : ScanState) (c : ConnectionStat) (h : ScanInv os s pre st) :
    ScanInv os s (pre ++ [c]) (scanStep os s st c) := by
  cases hc : (c.Status == "LISTEN" && !st.seen c.Laddr.Port)
  · -- the record is skipped
    rw [scanStep_skip os s st c hc]
    have hskip : ∀ p, isListenOn p c = true → p ∈ st.items.map portItem.port := by
      intro p hp
      simp only [isListenOn, Bool.and_eq_true, beq_iff_eq] at hp
      have hs : st.seen c.Laddr.Port = true := by
        cases hseen : st.seen c.Laddr.Port
        · simp [hp.1, hseen] at hc
        · rfl
      rw [← hp.2]
      exact (h.seen_iff _).1 hs
    refine ⟨h.seen_iff, ?_, h.nodup, ?_⟩
    · intro p
      constructor
      · intro hp
        obtain ⟨d, hd, hdp⟩ := (h.port_iff p).1 hp
        exact ⟨d, List.mem_append_left _ hd, hdp⟩
      · rintro ⟨d, hd, hdp⟩
        rcases List.mem_append.1 hd with hd | hd
        · exact (h.port_iff p).2 ⟨d, hd, hdp⟩
        · have : d = c := by simpa using hd
          subst this
          exact hskip p hdp
    · intro e he
      obtain ⟨d, hd, hed⟩ := h.first e he
      refine ⟨d, ?_, hed⟩
      unfold firstListen at hd ⊢
      rw [List.find?_append, hd]
      rfl
  · -- the record is taken
    rw [scanStep_take os s st c hc]
    simp only [Bool.and_eq_true, beq_iff_eq, Bool.not_eq_true'] at hc
    have hnew : c.Laddr.Port ∉ st.items.map portItem.port := by
      intro hmem
      have := (h.seen_iff _).2 hmem
      rw [hc.2] at this
      exact Bool.noConfusion this
    have hcl : isListenOn c.Laddr.Port c = true := by
      simp [isListenOn, hc.1]
    refine ⟨?_, ?_, ?_, ?_⟩
    · intro p
      by_cases hp : p = c.Laddr.Port
      · subst hp
        simp [itemOf]
      · have := h.seen_iff p
        simp only [hp, if_false, List.map_append, List.mem_append, List.map_cons, List.map_nil,
          List.mem_singleton, itemOf, or_false]
        exact this
    · intro p
      constructor
      · intro hp
        rw [List.map_append, List.mem_append] at hp
        rcases hp with hp | hp
        · obtain ⟨d, hd, hdp⟩ := (h.port_iff p).1 hp
          exact ⟨d, List.mem_append_left _ hd, hdp⟩
        · have hp2 : p = c.Laddr.Port := by simpa [itemOf] using hp
          subst hp2
          exact ⟨c, by simp, hcl⟩
      · rintro ⟨d, hd, hdp⟩
        rw [List.map_append, List.mem_append]
        rcases List.mem_append.1 hd with hd | hd
        · exact Or.inl ((h.port_iff p).2 ⟨d, hd, hdp⟩)
        · have : d = c := by simpa using hd
          subst this
          right
          simp only [isListenOn, Bool.and_eq_true, beq_iff_eq] at hdp
          simp [itemOf, hdp.2]
    · rw [List.map_append, List.nodup_append]
      refine ⟨h.nodup, by simp, ?_⟩
      intro a ha hb
      have : a = c.Laddr.Port := by simpa [itemOf] using hb
      subst this
      exact hnew ha
    · intro e he
      rcases List.mem_append.1 he with he | he
      · obtain ⟨d, hd, hed⟩ := h.first e he
        refine ⟨d, ?_, hed⟩
        unfold firstListen at hd ⊢
        rw [List.find?_append, hd]
        rfl
      · have hec : e = itemOf os s c := by simpa using he
        subst hec
        refine ⟨c, ?_, rfl⟩
        have hnone : pre.find? (isListenOn c.Laddr.Port) = none := by
          rw [List.find?_eq_none]
          intro d hd hdl
          exact hnew ((h.port_iff _).2 ⟨d, hd, hdl⟩)
        unfold firstListen
        change (pre ++ [c]).find? (isListenOn c.Laddr.Port) = some c
        rw [List.find?_append, hnone]
        simp [List.find?_cons, hcl]

theorem scanInv_foldl {σ : Type} (os : OS σ) (s : σ) (rest : List ConnectionStat) :
    ∀ (pre : List ConnectionStat) (st : ScanState), ScanInv os s pre st →
      ScanInv os s (pre ++ rest) (rest.foldl (scanStep os s) st) := by
  induction rest with
  | nil => intro pre st h; simpa using h
  | cons c rest ih =>
    intro pre st h
    have := ih (pre ++ [c]) (scanStep os s st c) (scanInv_step os s pre st c h)
    simpa using this

theorem scanInv_scanConns {σ : Type} (os : OS σ) (s : σ) (conns : List ConnectionStat) :
    ScanInv os s conns (scanConns os s conns) := by
  have := scanInv_foldl os s conns [] ScanState.init (scanInv_init os s)
  simpa [scanConns] using this

/-! ## The sort -/

theorem sortSlice_perm {α : Type} (less : α → α → Bool) (l : List α) :
    (sortSlice less l).Perm l :=
  List.perm_insertionSort _ l

theorem sortSlice_portLess_pairwise (l : List portItem) :
    (sortSlice portLess l).Pairwise (fun a b => a.port ≤ b.port) := by
  haveI : IsTotal portItem (fun a b => portLess b a = false) :=
    ⟨fun a b => by simp only [portLess, decide_eq_false_iff_not, not_lt]; exact Nat.le_total _ _⟩
  haveI : IsTrans portItem (fun a b => portLess b a = false) :=
    ⟨fun a b c => by
      simp only [portLess, decide_eq_false_iff_not, not_lt]; exact Nat.le_trans⟩
  have h := List.sorted_insertionSort (fun a b : portItem => portLess b a = false) l
  refine List.Pairwise.imp ?_ h
  intro a b hab
  simpa [portLess] using hab

theorem strict_of_nodup (l : List portItem) (hn : (l.map portItem.port).Nodup)
    (hs : l.Pairwise (fun a b => a.port ≤ b.port)) :
    l.Pairwise (fun a b => a.port < b.port) := by
  have hne : l.Pairwise (fun a b => a.port ≠ b.port) := by
    have := hn
    rw [List.Nodup, List.pairwise_map] at this
    exact this
  refine List.Pairwise.imp ?_ (hs.and hne)
  intro a b hab
  exact Nat.lt_of_le_of_ne hab.1 hab.2

theorem eq_of_perm_of_strict (l₁ l₂ : List portItem) (hp : l₁.Perm l₂)
    (h₁ : l₁.Pairwise (fun a b => a.port < b.port))
    (h₂ : l₂.Pairwise (fun a b => a.port < b.port)) : l₁ = l₂ := by
  haveI : IsAntisymm portItem (fun a b => a.port < b.port) :=
    ⟨fun a b hab hba => absurd hab (Nat.lt_asymm hba)⟩
  exact List.eq_of_perm_of_sorted hp h₁ h₂

theorem entriesFor_eq_count (l : List portItem) (p : Nat) :
    entriesFor l p = (l.map portItem.port).count p := by
  induction l with
  | nil => rfl
  | cons a l ih =>
    unfold entriesFor at ih ⊢
    by_cases h : a.port = p
    · simp [List.filter_cons, List.count_cons, h, ih]
    · simp [List.filter_cons, List.count_cons, h, ih]

/-! ## Facts about getActivePorts -/

theorem getActivePorts_perm {σ : Type} (os : OS σ) (s : σ) :
    (getActivePorts os s).Perm (scanConns os s (os.Connections s "tcp").1).items :=
  sortSlice_perm _ _

theorem getActivePorts_inv {σ : Type} (os : OS σ) (s : σ) :
    ScanInv os s (os.Connections s "tcp").1 (scanConns os s (os.Connections s "tcp").1) :=
  scanInv_scanConns os s _

theorem getActivePorts_nodup {σ : Type} (os : OS σ) (s : σ) :
    ((getActivePorts os s).map portItem.port).Nodup :=
  (((getActivePorts_perm os s).map portItem.port).nodup_iff).2 (getActivePorts_inv os s).nodup

theorem getActivePorts_mem_port {σ : Type} (os : OS σ) (s : σ) (p : Nat) :
    p ∈ (getActivePorts os s).map portItem.port ↔
      ∃ c ∈ (os.Connections s "tcp").1, isListenOn p c = true := by
  rw [((getActivePorts_perm os s).map portItem.port).mem_iff]
  exact (getActivePorts_inv os s).port_iff p

theorem getActivePorts_first {σ : Type} (os : OS σ) (s : σ) (e : portItem)
    (he : e ∈ getActivePorts os s) :
    ∃ c, firstListen (os.Connections s "tcp").1 e.port = some c ∧ e = itemOf os s c :=
  (getActivePorts_inv os s).first e ((getActivePorts_perm os s).mem_iff.1 he)

theorem getActivePorts_strict {σ : Type} (os : OS σ) (s : σ) :
    (getActivePorts os s).Pairwise (fun a b => a.port < b.port) :=
  strict_of_nodup _ (getActivePorts_nodup os s) (sortSlice_portLess_pairwise _)

theorem scan_filter_listen {σ : Type} (os : OS σ) (s : σ) (conns : List ConnectionStat) :
    ∀ st : ScanState,
      (conns.filter (fun c => c.Status == "LISTEN")).foldl (scanStep os s) st =
        conns.foldl (scanStep os s) st := by
  induction conns with
  | nil => intro st; rfl
  | cons c conns ih =>
    intro st
    cases hc : (c.Status == "LISTEN")
    · have hskip : scanStep os s st c = st := scanStep_skip os s st c (by simp [hc])
      simp [List.filter_cons, hc, hskip, ih]
    · simp [List.filter_cons, hc, ih]

theorem firstListen_mem (conns : List ConnectionStat) (p : Nat) (c : ConnectionStat)
    (h : firstListen conns p = some c) :
    c ∈ conns ∧ c.Status = "LISTEN" ∧ c.Laddr.Port = p := by
  unfold firstListen at h
  have hm := List.mem_of_find?_eq_some h
  have hp := List.find?_some h
  simp only [isListenOn, Bool.and_eq_true, beq_iff_eq] at hp
  exact ⟨hm, hp.1, hp.2⟩

theorem getActivePorts_isSliceSort {σ : Type} (os : OS σ) (s : σ) :
    IsSliceSort portLess (scanConns os s (os.Connections s "tcp").1).items
      (getActivePorts os s) := by
  refine ⟨getActivePorts_perm os s, ?_⟩
  refine List.Pairwise.imp ?_ (sortSlice_portLess_pairwise _)
  intro a b hab
  simpa [portLess] using hab

/-! ## Claims about getActivePorts -/

/-- C1 (dedup invariant): the table returned by `getActivePorts` has exactly one entry
for every port that occurs in a `LISTEN` record and none for any other port; every entry
carries the port and pid (and the resolved name) of the first `LISTEN` record with its
port, in input order; the scenario 22/100, 80/200, 22/999 yields 22/100/sshd, 80/200/nginx. -/
theorem getActivePorts_dedup {σ : Type} (os : OS σ) (s : σ) :
    (∀ p, entriesFor (getActivePorts os s) p =
        if (os.Connections s "tcp").1.any (isListenOn p) then 1 else 0) ∧
    (∀ e ∈ getActivePorts os s, ∃ c,
        firstListen (os.Connections s "tcp").1 e.port = some c ∧
        e.port = c.Laddr.Port ∧ e.pid = c.Pid ∧ e.procName = resolveName os s c.Pid) ∧
    getActivePorts simOS specState = [⟨22, 100, "sshd"⟩, ⟨80, 200, "nginx"⟩] := by
  refine ⟨?_, ?_, by decide⟩
  · intro p
    rw [entriesFor_eq_count, List.count_eq_of_nodup (getActivePorts_nodup os s)]
    by_cases h : p ∈ (getActivePorts os s).map portItem.port
    · have h2 := (getActivePorts_mem_port os s p).1 h
      have h3 : (os.Connections s "tcp").1.any (isListenOn p) = true :=
        List.any_eq_true.2 h2
      simp [h, h3]
    · have h3 : (os.Connections s "tcp").1.any (isListenOn p) = false := by
        cases hany : (os.Connections s "tcp").1.any (isListenOn p)
        · rfl
        · exact absurd ((getActivePorts_mem_port os s p).2 (List.any_eq_true.1 hany)) h
      simp [h, h3]
  · intro e he
    obtain ⟨c, hc, hec⟩ := getActivePorts_first os s e he
    refine ⟨c, hc, ?_, ?_, ?_⟩ <;> rw [hec] <;> rfl

/-- C2 (sort invariant): the table returned by `getActivePorts` is strictly ascending by
port: neighbouring entries have increasing ports, and so have any two entries in order. -/
theorem getActivePorts_sorted {σ : Type} (os : OS σ) (s : σ) :
    (∀ i a b, (getActivePorts os s)[i]? = some a → (getActivePorts os s)[i + 1]? = some b →
        a.port < b.port) ∧
    (getActivePorts os s).Pairwise (fun a b => a.port < b.port) := by
  refine ⟨?_, getActivePorts_strict os s⟩
  intro i a b ha hb
  obtain ⟨hi, hai⟩ := List.getElem?_eq_some.1 ha
  obtain ⟨hj, hbj⟩ := List.getElem?_eq_some.1 hb
  have := List.pairwise_iff_getElem.1 (getActivePorts_strict os s) i (i + 1) hi hj (Nat.lt_succ_self i)
  rw [hai, hbj] at this
  exact this

/-- C9 (LISTEN filtering precedes deduplication): `getActivePorts` returns the same table
when the records that are not `LISTEN` are removed from the input; every entry comes from
a `LISTEN` record; the first `LISTEN` record of a port yields the entry of that port
whatever precedes it; an input without `LISTEN` records yields the empty table. -/
theorem getActivePorts_listen_only {σ : Type} (os : OS σ) (s : σ) :
    getActivePorts (listenOnly os) s = getActivePorts os s ∧
    (∀ e ∈ getActivePorts os s, ∃ c ∈ (os.Connections s "tcp").1,
        c.Status = "LISTEN" ∧ e = itemOf os s c) ∧
    (∀ p c, firstListen (os.Connections s "tcp").1 p = some c →
        itemOf os s c ∈ getActivePorts os s) ∧
    (((os.Connections s "tcp").1.filter (fun c => c.Status == "LISTEN")) = [] →
        getActivePorts os s = []) := by
  refine ⟨?_, ?_, ?_, ?_⟩
  · have h := scan_filter_listen os s (os.Connections s "tcp").1 ScanState.init
    show sortSlice portLess
        (((os.Connections s "tcp").1.filter (fun c => c.Status == "LISTEN")).foldl
          (scanStep os s) ScanState.init).items = _
    rw [h]
    rfl
  · intro e he
    obtain ⟨c, hc, hec⟩ := getActivePorts_first os s e he
    obtain ⟨hm, hl, _⟩ := firstListen_mem _ _ _ hc
    exact ⟨c, hm, hl, hec⟩
  · intro p c hc
    obtain ⟨hm, hl, hp⟩ := firstListen_mem _ _ _ hc
    have hmem : p ∈ (getActivePorts os s).map portItem.port :=
      (getActivePorts_mem_port os s p).2 ⟨c, hm, by simp [isListenOn, hl, hp]⟩
    obtain ⟨e, he, hep⟩ := List.mem_map.1 hmem
    obtain ⟨d, hd, hed⟩ := getActivePorts_first os s e he
    rw [hep, hc] at hd
    cases hd
    rw [← hed]
    exact he
  · intro hnil
    apply List.eq_nil_iff_forall_not_mem.2
    intro e he
    obtain ⟨c, hc, _⟩ := getActivePorts_first os s e he
    obtain ⟨hm, hl, _⟩ := firstListen_mem _ _ _ hc
    have : c ∈ (os.Connections s "tcp").1.filter (fun c => c.Status == "LISTEN") :=
      List.mem_filter.2 ⟨hm, by simp [hl]⟩
    rw [hnil] at this
    exact absurd this (List.not_mem_nil c)

/-- C10 (determinism of the order): every list that `sort.Slice` may leave behind, that is
every permutation of the deduplicated, name-resolved entries in which no later entry has a
smaller port than an earlier one, is the table `getActivePorts` returns. -/
theorem getActivePorts_order_determined {σ : Type} (os : OS σ) (s : σ) (out : List portItem)
    (h : IsSliceSort portLess (scanConns os s (os.Connections s "tcp").1).items out) :
    out = getActivePorts os s := by
  have hperm : out.Perm (getActivePorts os s) := h.1.trans (getActivePorts_perm os s).symm
  have hnd : (out.map portItem.port).Nodup :=
    ((hperm.map portItem.port).nodup_iff).2 (getActivePorts_nodup os s)
  have hle : out.Pairwise (fun a b => a.port ≤ b.port) := by
    refine List.Pairwise.imp ?_ h.2
    intro a b hab
    simpa [portLess] using hab
  exact eq_of_perm_of_strict _ _ hperm (strict_of_nodup _ hnd hle) (getActivePorts_strict os s)

/-- C10 at a concrete input whose first-seen order (80, 22) is not the port order. -/
theorem getActivePorts_order_determined_witness :
    IsSliceSort portLess (scanConns simOS unorderedState
        (simOS.Connections unorderedState "tcp").1).items
      [⟨22, 100, "sshd"⟩, ⟨80, 200, "nginx"⟩] ∧
    [⟨22, 100, "sshd"⟩, ⟨80, 200, "nginx"⟩] = getActivePorts simOS unorderedState :=
  ⟨by unfold IsSliceSort; decide,
   getActivePorts_order_determined simOS unorderedState _ (by unfold IsSliceSort; decide)⟩

/-! ## Decimal representation -/

theorem digitChar_facts :
    ∀ k, k < 10 → digitValue (Nat.digitChar k) = k ∧
      isDecimalDigit (Nat.digitChar k) = true ∧ (Nat.digitChar k = '0' → k = 0) := by
  decide

theorem numeralValue_append_single (cs : List Char) (d : Char) :
    numeralValue (cs ++ [d]) = 10 * numeralValue cs + digitValue d := by
  simp [numeralValue, List.foldl_append]

theorem toDigitsCore_numeral (fuel : Nat) :
    ∀ (n : Nat) (ds : List Char), n < fuel →
      ∃ cs, Nat.toDigitsCore 10 fuel n ds = cs ++ ds ∧ IsNumeralOf n cs := by
  induction fuel with
  | zero => intro n ds h; exact absurd h (Nat.not_lt_zero n)
  | succ fuel ih =>
    intro n ds hn
    have hmod : n % 10 < 10 := Nat.mod_lt n (by decide)
    obtain ⟨hval, hdig, hzero⟩ := digitChar_facts (n % 10) hmod
    by_cases hq : n / 10 = 0
    · have hlt : n < 10 := by omega
      have hn' : n % 10 = n := Nat.mod_eq_of_lt hlt
      refine ⟨[Nat.digitChar (n % 10)], by simp [Nat.toDigitsCore, hq], ?_⟩
      refine ⟨by simp, ?_, ?_, ?_⟩
      · intro c hc
        have : c = Nat.digitChar (n % 10) := by simpa using hc
        rw [this]; exact hdig
      · intro h0
        have h1 : Nat.digitChar (n % 10) = '0' := by simpa using h0
        rw [h1]
      · have h1 : numeralValue [Nat.digitChar (n % 10)] = digitValue (Nat.digitChar (n % 10)) := by
          simp [numeralValue]
        rw [h1, hval, hn']
    · have hlt : n / 10 < fuel := by omega
      obtain ⟨cs, hcs, hne, hall, hhead, hv⟩ :=
        ih (n / 10) (Nat.digitChar (n % 10) :: ds) hlt
      refine ⟨cs ++ [Nat.digitChar (n % 10)], by simp [Nat.toDigitsCore, hq, hcs], ?_⟩
      refine ⟨by simp, ?_, ?_, ?_⟩
      · intro c hc
        rcases List.mem_append.1 hc with hc | hc
        · exact hall c hc
        · have : c = Nat.digitChar (n % 10) := by simpa using hc
          rw [this]; exact hdig
      · intro h0
        exfalso
        cases cs with
        | nil => exact hne rfl
        | cons c cs' =>
          have hc0 : (c :: cs').head? = some '0' := by simpa using h0
          have hone := hhead hc0
          rw [hone] at hv
          have : numeralValue ['0'] = 0 := by decide
          exact hq (by rw [← hv, this])
      · rw [numeralValue_append_single, hv, hval]
        omega

theorem fmtNat_numeral (n : Nat) : IsNumeralOf n (fmtNat n).data := by
  obtain ⟨cs, hcs, h⟩ := toDigitsCore_numeral (n + 1) n [] (Nat.lt_succ_self n)
  have hdata : (fmtNat n).data = Nat.toDigitsCore 10 (n + 1) n [] := rfl
  rw [hdata, hcs, List.append_nil]
  exact h

theorem fmtInt_decimal (i : Int) : IsDecimalOf i (fmtInt i) := by
  cases i with
  | ofNat m =>
    left
    exact ⟨Int.ofNat_nonneg m, fmtNat_numeral m⟩
  | negSucc m =>
    right
    have hdata : (fmtInt (Int.negSucc m)).data = '-' :: (fmtNat (m + 1)).data := by
      show ("-" ++ toString (m + 1)).data = _
      rw [String.data_append]
      rfl
    refine ⟨Int.negSucc_lt_zero m, by rw [hdata]; rfl, ?_⟩
    rw [hdata]
    exact fmtNat_numeral (m + 1)

theorem isPlainChar_of_digit (c : Char) (h : isDecimalDigit c = true) :
    isPlainChar c = true := by
  simp only [isDecimalDigit, Bool.and_eq_true, decide_eq_true_eq] at h
  have h9 : c ≠ '\t' := by rintro rfl; exact absurd h.1 (by decide)
  have h10 : c ≠ '\n' := by rintro rfl; exact absurd h.1 (by decide)
  have h13 : c ≠ '\r' := by rintro rfl; exact absurd h.1 (by decide)
  simp [isPlainChar, h9, h10, h13]

theorem isPlain_of_numeral (n : Nat) (t : String) (h : IsNumeralOf n t.data) :
    isPlain t = true := by
  unfold isPlain
  rw [List.all_eq_true]
  intro c hc
  exact isPlainChar_of_digit c (h.2.1 c hc)

theorem isPlain_fmtNat (n : Nat) : isPlain (fmtNat n) = true :=
  isPlain_of_numeral n _ (fmtNat_numeral n)

theorem isPlain_fmtInt (i : Int) : isPlain (fmtInt i) = true := by
  cases i with
  | ofNat m => exact isPlain_fmtNat m
  | negSucc m =>
    have hdata : (fmtInt (Int.negSucc m)).data = '-' :: (fmtNat (m + 1)).data := by
      show ("-" ++ toString (m + 1)).data = _
      rw [String.data_append]
      rfl
    have h := isPlain_fmtNat (m + 1)
    unfold isPlain at h ⊢
    rw [hdata, List.all_cons, h]
    decide

/-! ## Rendering line by line -/

theorem styleChars_append (pre post : List Char) (a r : List Char) :
    ∃ x, styleChars pre post (a ++ r) = x ++ styleChars pre post r := by
  induction a with
  | nil => exact ⟨[], rfl⟩
  | cons c t ih =>
    obtain ⟨x, hx⟩ := ih
    simp only [List.cons_append, styleChars]
    split
    · exact ⟨' ' :: ' ' :: ' ' :: ' ' :: x, by simp [hx]⟩
    · split
      · exact ⟨x, hx⟩
      · split
        · exact ⟨post ++ '\n' :: (pre ++ x), by simp [hx]⟩
        · exact ⟨c :: x, by simp [hx]⟩

theorem styleChars_plain (pre post : List Char) (b r : List Char)
    (hb : b.all isPlainChar = true) :
    styleChars pre post (b ++ r) = b ++ styleChars pre post r := by
  induction b with
  | nil => rfl
  | cons c t ih =>
    rw [List.all_cons, Bool.and_eq_true] at hb
    have hc := hb.1
    simp only [isPlainChar, Bool.and_eq_true, bne_iff_ne, ne_eq] at hc
    have ih' := ih hb.2
    simp only [List.cons_append, styleChars, hc.1.1, hc.1.2, hc.2, false_and, if_false]
    exact congrArg (List.cons c) ih'

theorem lineStyle_keepsPlainRuns (pre post : String) : (lineStyle pre post).KeepsPlainRuns := by
  intro a b c hb
  obtain ⟨x, hx⟩ := styleChars_append pre.data post.data a.data (b.data ++ c.data)
  have hp := styleChars_plain pre.data post.data b.data c.data hb
  refine ⟨pre.data ++ x, styleChars pre.data post.data c.data ++ post.data, ?_⟩
  show _ = pre.data ++ styleChars pre.data post.data ((a ++ b ++ c).data) ++ post.data
  rw [String.data_append, String.data_append, List.append_assoc a.data, hx, hp]
  simp [List.append_assoc]

theorem isKillKey_cases {key : String} (h : isKillKey key = true) :
    key = "x" ∨ key = "delete" ∨ key = "k" := by
  simpa [isKillKey, or_assoc] using h

/-! ## Claims about model.Update -/

theorem simpleList_lawful : simpleList.Lawful := by
  refine ⟨fun l xs => rfl, fun l msg => ?_⟩
  cases msg with
  | KeyMsg key =>
    simp only [simpleList]
    split
    · rfl
    · split <;> rfl
  | WindowSizeMsg w h => rfl
  | other => rfl

/-- C3 (kill failure path): when a kill key is handled, an entry is selected, a process
handle is obtained and the kill call returns an error, `Update` leaves the list to the
widget without setting new items, so the table items are unchanged, and the new message is
the error style's rendering of "Failed to kill " followed by the decimal representation of
the selected entry's pid, which the message contains. -/
theorem Update_kill_failure {σ L S : Type} (W : ListWidget L) (os : OS σ) (sty : Styles)
    (m : model L S) (key : String) (s s' : σ) (sel : portItem) (p : Process) (e : String)
    (hW : W.Lawful) (hR : sty.errorStyle.KeepsPlainRuns) (hkey : isKillKey key = true)
    (hsel : W.SelectedItem m.list = some sel)
    (hp : os.NewProcess s sel.pid = .ok p) (hkill : os.Kill s p = (some e, s')) :
    ∃ m' cmd, Update W os sty m (.KeyMsg key) s = .ok ((m', cmd), s') ∧
      m'.list = (W.Update m.list (.KeyMsg key)).1 ∧
      W.Items m'.list = W.Items m.list ∧
      ∃ t, IsDecimalOf sel.pid t ∧
        m'.message = sty.errorStyle.Render ("Failed to kill " ++ t) ∧
        containsText m'.message t := by
  refine ⟨{ m with list := (W.Update m.list (.KeyMsg key)).1,
                   message := sty.errorStyle.Render ("Failed to kill " ++ fmtInt sel.pid) },
    (W.Update m.list (.KeyMsg key)).2, ?_, rfl, hW.2 _ _,
    fmtInt sel.pid, fmtInt_decimal sel.pid, rfl, ?_⟩
  · rcases isKillKey_cases hkey with rfl | rfl | rfl <;>
      simp [Update, isKillKey, forward, hsel, hp, hkill]
  · have h := hR "Failed to kill " (fmtInt sel.pid) "" (isPlain_fmtInt sel.pid)
    rw [String.append_empty] at h
    exact h

/-- C3 at a concrete input: killing pid 1 is refused; the table stays as it was and the
message names pid 1. -/
theorem Update_kill_failure_witness :
    guardedOS.Kill initState ⟨1⟩ = (some "operation not permitted", initState) ∧
    termStyles.errorStyle.KeepsPlainRuns ∧
    Update simpleList guardedOS termStyles
        (modelOf [⟨53, 1, "systemd"⟩, ⟨8080, 4242, "node"⟩] "") (.KeyMsg "x") initState
      = .ok ((modelOf [⟨53, 1, "systemd"⟩, ⟨8080, 4242, "node"⟩]
          "\x1b[1;38;5;196mFailed to kill 1\x1b[0m", Cmd.nil), initState) ∧
    ∃ m' cmd, Update simpleList guardedOS termStyles
        (modelOf [⟨53, 1, "systemd"⟩, ⟨8080, 4242, "node"⟩] "") (.KeyMsg "x") initState
          = .ok ((m', cmd), initState) ∧
      m'.list = (simpleList.Update
        (modelOf [⟨53, 1, "systemd"⟩, ⟨8080, 4242, "node"⟩] "").list (.KeyMsg "x")).1 ∧
      simpleList.Items m'.list = [⟨53, 1, "systemd"⟩, ⟨8080, 4242, "node"⟩] ∧
      ∃ t, IsDecimalOf 1 t ∧
        m'.message = termStyles.errorStyle.Render ("Failed to kill " ++ t) ∧
        containsText m'.message t :=
  ⟨rfl, lineStyle_keepsPlainRuns _ _, rfl,
    Update_kill_failure simpleList guardedOS termStyles
      (modelOf [⟨53, 1, "systemd"⟩, ⟨8080, 4242, "node"⟩] "") "x" initState initState
      ⟨53, 1, "systemd"⟩ ⟨1⟩ "operation not permitted" simpleList_lawful
      (lineStyle_keepsPlainRuns _ _) (by decide) (by decide) rfl rfl⟩

/-- C4, as stated, fails for the process name: the owner of port 53 is named "my", a tab,
"proc"; the kill succeeds and the status style, which renders a tab as four spaces, gives a
message that does not contain that name. -/
theorem Update_kill_success_counterexample :
    getActivePorts simOS tabState = [⟨53, 1, "my\tproc"⟩] ∧
    simOS.NewProcess tabState 1 = .ok ⟨1⟩ ∧
    simOS.Kill tabState ⟨1⟩ = (none, { conns := [], procs := [] }) ∧
    Update simpleList simOS termStyles (modelOf [⟨53, 1, "my\tproc"⟩] "") (.KeyMsg "x") tabState
      = .ok ((modelOf [] "\x1b[3;38;5;42mSuccessfully killed my    proc (Port 53)\x1b[0m",
          Cmd.nil), { conns := [], procs := [] }) ∧
    ¬ containsText "\x1b[3;38;5;42mSuccessfully killed my    proc (Port 53)\x1b[0m"
        "my\tproc" := by
  refine ⟨by decide, rfl, by decide, rfl, by decide⟩

/-- C4 as amended (kill success path): when a kill key is handled, an entry is selected, a
process handle is obtained and the kill call returns no error, the table items of the new
model are the result of `getActivePorts` in the OS state after the kill; the new message
is the status style's rendering of "Successfully killed ", the process name, " (Port ",
the decimal representation of the port and ")", taken from the entry that was selected;
the message contains that decimal port, and it contains the process name when the name
has no tab, line feed or carriage return. -/
theorem Update_kill_success {σ L S : Type} (W : ListWidget L) (os : OS σ) (sty : Styles)
    (m : model L S) (key : String) (s s' : σ) (sel : portItem) (p : Process)
    (hW : W.Lawful) (hR : sty.statusMessageStyle.KeepsPlainRuns)
    (hkey : isKillKey key = true) (hsel : W.SelectedItem m.list = some sel)
    (hp : os.NewProcess s sel.pid = .ok p) (hkill : os.Kill s p = (none, s')) :
    ∃ m' cmd, Update W os sty m (.KeyMsg key) s = .ok ((m', cmd), s') ∧
      W.Items m'.list = getActivePorts os s' ∧
      (∃ t : String, IsNumeralOf sel.port t.data ∧
        m'.message = sty.statusMessageStyle.Render
          ("Successfully killed " ++ sel.procName ++ " (Port " ++ t ++ ")") ∧
        containsText m'.message t) ∧
      (isPlain sel.procName = true → containsText m'.message sel.procName) := by
  refine ⟨{ m with
      list := (W.Update (W.SetItems m.list (getActivePorts os s')) (.KeyMsg key)).1,
      message := sty.statusMessageStyle.Render (successText sel) },
    (W.Update (W.SetItems m.list (getActivePorts os s')) (.KeyMsg key)).2, ?_, ?_,
    ⟨fmtNat sel.port, fmtNat_numeral sel.port, rfl, ?_⟩, ?_⟩
  · rcases isKillKey_cases hkey with rfl | rfl | rfl <;>
      simp [Update, isKillKey, forward, hsel, hp, hkill, successText]
  · show W.Items (W.Update _ _).1 = _
    rw [hW.2, hW.1]
  · exact hR ("Successfully killed " ++ sel.procName ++ " (Port ") (fmtNat sel.port) ")"
      (isPlain_fmtNat sel.port)
  · intro hname
    have h := hR "Successfully killed " sel.procName (" (Port " ++ fmtNat sel.port ++ ")") hname
    have hassoc : "Successfully killed " ++ sel.procName ++ (" (Port " ++ fmtNat sel.port ++ ")")
        = successText sel := by
      simp [successText, String.append_assoc]
    rw [hassoc] at h
    exact h

/-- C4 as amended, at a concrete input: killing pid 1 (port 53) succeeds, port 53 leaves
the table, and the message names "systemd" and port 53. -/
theorem Update_kill_success_witness :
    simOS.Kill initState ⟨1⟩ =
      (none, { conns := [listenOn 8080 4242], procs := [(4242, "node")] }) ∧
    termStyles.statusMessageStyle.KeepsPlainRuns ∧
    Update simpleList simOS termStyles
        (modelOf [⟨53, 1, "systemd"⟩, ⟨8080, 4242, "node"⟩] "") (.KeyMsg "delete") initState
      = .ok ((modelOf [⟨8080, 4242, "node"⟩]
          "\x1b[3;38;5;42mSuccessfully killed systemd (Port 53)\x1b[0m", Cmd.nil),
          { conns := [listenOn 8080 4242], procs := [(4242, "node")] }) ∧
    ∃ m' cmd, Update simpleList simOS termStyles
        (modelOf [⟨53, 1, "systemd"⟩, ⟨8080, 4242, "node"⟩] "") (.KeyMsg "delete") initState
          = .ok ((m', cmd), { conns := [listenOn 8080 4242], procs := [(4242, "node")] }) ∧
      simpleList.Items m'.list =
        getActivePorts simOS { conns := [listenOn 8080 4242], procs := [(4242, "node")] } ∧
      (∃ t : String, IsNumeralOf 53 t.data ∧
        m'.message = termStyles.statusMessageStyle.Render
          ("Successfully killed " ++ "systemd" ++ " (Port " ++ t ++ ")") ∧
        containsText m'.message t) ∧
      (isPlain "systemd" = true → containsText m'.message "systemd") :=
  ⟨by decide, lineStyle_keepsPlainRuns _ _, rfl,
    Update_kill_success simpleList simOS termStyles
      (modelOf [⟨53, 1, "systemd"⟩, ⟨8080, 4242, "node"⟩] "") "delete" initState
      { conns := [listenOn 8080 4242], procs := [(4242, "node")] }
      ⟨53, 1, "systemd"⟩ ⟨1⟩ simpleList_lawful (lineStyle_keepsPlainRuns _ _)
      (by decide) (by decide) rfl (by decide)⟩

/-- C8 (refresh transition): handling the key "r" returns a model whose table items are
the result of `getActivePorts` in the current OS state and whose message is exactly
"List refreshed", whatever the previous table and message were; the OS state is unchanged. -/
theorem Update_refresh {σ L S : Type} (W : ListWidget L) (os : OS σ) (sty : Styles)
    (m : model L S) (s : σ) (hW : W.Lawful) :
    ∃ m' cmd, Update W os sty m (.KeyMsg "r") s = .ok ((m', cmd), s) ∧
      W.Items m'.list = getActivePorts os s ∧ m'.message = "List refreshed" := by
  refine ⟨{ m with
      list := (W.Update (W.SetItems m.list (getActivePorts os s)) (.KeyMsg "r")).1,
      message := "List refreshed" },
    (W.Update (W.SetItems m.list (getActivePorts os s)) (.KeyMsg "r")).2, ?_, ?_, rfl⟩
  · simp [Update, forward]
  · show W.Items (W.Update _ _).1 = _
    rw [hW.2, hW.1]

/-- C8 at a concrete input: a stale table and an old message are both replaced. -/
theorem Update_refresh_witness :
    ∃ m' cmd, Update simpleList simOS ansiStyles
        (modelOf [⟨8080, 4242, "node"⟩] "Failed to kill 4242") (.KeyMsg "r") specState
          = .ok ((m', cmd), specState) ∧
      simpleList.Items m'.list = getActivePorts simOS specState ∧
      m'.message = "List refreshed" :=
  Update_refresh simpleList simOS ansiStyles
    (modelOf [⟨8080, 4242, "node"⟩] "Failed to kill 4242") specState simpleList_lawful

/-- C5, as stated, fails. The owner 4242 of the selected entry has exited and is gone from
the connection table. When no process handle is obtained, `Update` returns the model as it
was: the stale table and the old message. When a handle is obtained and the kill call
reports that the process has already finished, `Update` keeps the stale table and sets the
failure message. In neither case is the table the fresh `getActivePorts` result or the
message the success message. -/
theorem Update_kill_not_found_counterexample :
    simOS.NewProcess goneState 4242 = .error "process does not exist" ∧
    Update simpleList simOS ansiStyles (modelOf [⟨8080, 4242, "node"⟩] "List refreshed")
        (.KeyMsg "x") goneState
      = .ok ((modelOf [⟨8080, 4242, "node"⟩] "List refreshed", Cmd.nil), goneState) ∧
    staleOS.NewProcess goneState 4242 = .ok ⟨4242⟩ ∧
    staleOS.Kill goneState ⟨4242⟩ = (some "os: process already finished", goneState) ∧
    Update simpleList staleOS ansiStyles (modelOf [⟨8080, 4242, "node"⟩] "List refreshed")
        (.KeyMsg "x") goneState
      = .ok ((modelOf [⟨8080, 4242, "node"⟩]
          (ansiStyles.errorStyle.Render "Failed to kill 4242"), Cmd.nil), goneState) ∧
    getActivePorts simOS goneState = [⟨22, 100, "sshd"⟩] ∧
    getActivePorts staleOS goneState = [⟨22, 100, "sshd"⟩] ∧
    simpleList.Items (modelOf [⟨8080, 4242, "node"⟩] "List refreshed").list
      ≠ getActivePorts simOS goneState ∧
    "List refreshed" ≠ ansiStyles.statusMessageStyle.Render (successText ⟨8080, 4242, "node"⟩) ∧
    ansiStyles.errorStyle.Render "Failed to kill 4242"
      ≠ ansiStyles.statusMessageStyle.Render (successText ⟨8080, 4242, "node"⟩) := by
  refine ⟨rfl, rfl, rfl, rfl, rfl, by decide, by decide, by decide, by decide, by decide⟩

/-- C5 as amended: when a kill key is handled with an entry selected and no process handle
is obtained for its pid, `Update` makes no kill call and returns the model with the table
items and the message it had; when a handle is obtained and the kill call returns any
error (a process that no longer exists included), the table items are unchanged and the
message is the rendered failure text naming the pid. -/
theorem Update_kill_not_found {σ L S : Type} (W : ListWidget L) (os : OS σ) (sty : Styles)
    (m : model L S) (key : String) (s : σ) (sel : portItem)
    (hW : W.Lawful) (hkey : isKillKey key = true)
    (hsel : W.SelectedItem m.list = some sel) :
    (∀ err, os.NewProcess s sel.pid = .error err →
      ∃ m' cmd, Update W os sty m (.KeyMsg key) s = .ok ((m', cmd), s) ∧
        m'.list = (W.Update m.list (.KeyMsg key)).1 ∧
        W.Items m'.list = W.Items m.list ∧ m'.message = m.message) ∧
    (∀ p err s', os.NewProcess s sel.pid = .ok p → os.Kill s p = (some err, s') →
      ∃ m' cmd, Update W os sty m (.KeyMsg key) s = .ok ((m', cmd), s') ∧
        m'.list = (W.Update m.list (.KeyMsg key)).1 ∧
        W.Items m'.list = W.Items m.list ∧
        m'.message = sty.errorStyle.Render (failureText sel)) := by
  constructor
  · intro err hp
    refine ⟨{ m with list := (W.Update m.list (.KeyMsg key)).1 },
      (W.Update m.list (.KeyMsg key)).2, ?_, rfl, hW.2 _ _, rfl⟩
    rcases isKillKey_cases hkey with rfl | rfl | rfl <;>
      simp [Update, isKillKey, forward, hsel, hp]
  · intro p err s' hp hkill
    refine ⟨{ m with list := (W.Update m.list (.KeyMsg key)).1,
                     message := sty.errorStyle.Render (failureText sel) },
      (W.Update m.list (.KeyMsg key)).2, ?_, rfl, hW.2 _ _, rfl⟩
    rcases isKillKey_cases hkey with rfl | rfl | rfl <;>
      simp [Update, isKillKey, forward, hsel, hp, hkill, failureText]

/-- C5 as amended, at the concrete input of the counterexample. -/
theorem Update_kill_not_found_witness :
    (∀ err, simOS.NewProcess goneState 4242 = .error err →
      ∃ m' cmd, Update simpleList simOS ansiStyles
          (modelOf [⟨8080, 4242, "node"⟩] "List refreshed") (.KeyMsg "x") goneState
            = .ok ((m', cmd), goneState) ∧
        m'.list = (simpleList.Update
          (modelOf [⟨8080, 4242, "node"⟩] "List refreshed").list (.KeyMsg "x")).1 ∧
        simpleList.Items m'.list = [⟨8080, 4242, "node"⟩] ∧
        m'.message = "List refreshed") ∧
    (∀ p err s', simOS.NewProcess goneState 4242 = .ok p →
      simOS.Kill goneState p = (some err, s') →
      ∃ m' cmd, Update simpleList simOS ansiStyles
          (modelOf [⟨8080, 4242, "node"⟩] "List refreshed") (.KeyMsg "x") goneState
            = .ok ((m', cmd), s') ∧
        m'.list = (simpleList.Update
          (modelOf [⟨8080, 4242, "node"⟩] "List refreshed").list (.KeyMsg "x")).1 ∧
        simpleList.Items m'.list = [⟨8080, 4242, "node"⟩] ∧
        m'.message = ansiStyles.errorStyle.Render (failureText ⟨8080, 4242, "node"⟩)) :=
  Update_kill_not_found simpleList simOS ansiStyles
    (modelOf [⟨8080, 4242, "node"⟩] "List refreshed") "x" goneState ⟨8080, 4242, "node"⟩
    simpleList_lawful (by decide) (by decide)

/-- C6 fails on the code: when a kill key is handled and the list has no selected item,
`SelectedItem()` is nil and the type assertion `.(portItem)` panics; `Update` returns no
model at all. -/
theorem Update_kill_nothing_selected {σ L S : Type} (W : ListWidget L) (os : OS σ)
    (sty : Styles) (m : model L S) (key : String) (s : σ)
    (hkey : isKillKey key = true) (hsel : W.SelectedItem m.list = none) :
    Update W os sty m (.KeyMsg key) s = .error nilAssertion := by
  rcases isKillKey_cases hkey with rfl | rfl | rfl <;>
    simp [Update, isKillKey, hsel]

/-- C6 at the failing input: the empty table and the key "x". -/
theorem Update_kill_nothing_selected_witness :
    simpleList.Items (modelOf [] "").list = [] ∧
    simpleList.SelectedItem (modelOf [] "").list = none ∧
    Update simpleList simOS ansiStyles (modelOf [] "") (.KeyMsg "x") specState
      = .error "interface conversion: list.Item is nil, not main.portItem" :=
  ⟨rfl, rfl, Update_kill_nothing_selected simpleList simOS ansiStyles (modelOf [] "") "x"
    specState (by decide) (by decide)⟩

/-- C7 fails on the code for a failing name query: an entry of the table has the name
"Unknown" when no process handle is obtained for its pid, but when a handle is obtained
its name is the string `Name()` returned, whether or not `Name()` reported an error. At
the input where the owner of port 8080 has exited after the handle was obtained, `Name()`
returns the empty string with an error and the entry's name is empty, not "Unknown". -/
theorem getActivePorts_name_failure {σ : Type} (os : OS σ) (s : σ) :
    (∀ e ∈ getActivePorts os s,
      (∀ err, os.NewProcess s e.pid = .error err → e.procName = "Unknown") ∧
      (∀ p, os.NewProcess s e.pid = .ok p → e.procName = (os.Name s p).1)) ∧
    staleOS.NewProcess vanishedState 4242 = .ok ⟨4242⟩ ∧
    staleOS.Name vanishedState ⟨4242⟩ = ("", some "no such process") ∧
    getActivePorts staleOS vanishedState = [⟨8080, 4242, ""⟩] ∧
    getActivePorts staleOS vanishedState ≠ [⟨8080, 4242, "Unknown"⟩] := by
  refine ⟨?_, rfl, rfl, by decide, by decide⟩
  intro e he
  obtain ⟨c, _, hec⟩ := getActivePorts_first os s e he
  subst hec
  constructor
  · intro err herr
    simp only [itemOf, resolveName] at herr ⊢
    rw [herr]
  · intro p hp
    simp only [itemOf, resolveName] at hp ⊢
    rw [hp]

end PortKiller
